import Mathlib

/-!
Shallow embedding of the `strb_t` string-buffer library (src/strb.c, src/strb.h).

The embedding models the dynamically-allocating build of the library
(`strbsize_t` = `uint16_t`, `STRB_MAX_SIZE` = `UINT16_MAX`, `STRB_GROW_FACTOR` = 2,
`STRB_EXT_STATE` = 1) with the optional `strb_unputc` / `strb_restore` features
compiled in, so that every line of src/strb.c cited by the claims is live code.

Modelling conventions:
* the backing character array is a total function `Nat → Nat` (byte values); the
  fields `size`, `len`, `pos` mirror `p.size`, `p.len`, `p.pos`;
* the flag bits `F_ERR`, `F_CAN_UNPUTC`, `F_CAN_RESTORE`, `F_OVERWRITE`,
  `F_EXTERNAL`, `F_ALLOCATED`, `F_AUTOFREE` are separate `Bool` fields;
* `malloc`/`realloc` outcomes are an explicit `allocOk : Bool` argument, and the
  indeterminate fresh bytes produced by growing storage are an explicit
  `fill : Nat` argument, so growth is modelled without fixing those bytes;
* `assert` statements compile to nothing (NDEBUG build); the semantics modelled
  is the release-build semantics;
* the host formatting facility (`vsnprintf`/`vsprintf`) is abstracted as an
  `Option (List Nat)` argument: `none` models a negative return from
  `vsnprintf` (formatting failure), `some o` models a successful rendering of
  the byte sequence `o` (so `o.length` is the value returned by `vsnprintf`).
-/

/-- `STRB_MAX_SIZE` for the dynamic build: `UINT16_MAX` (src/strb.h line 105). -/
def STRB_MAX_SIZE : Nat := 65535

/-- `STRB_GROW_FACTOR` (src/strb.h line 125). -/
def STRB_GROW_FACTOR : Nat := 2

/-- `SIZE_MAX` of the 64-bit host, used by `strb_puts` and `strb_cpy`. -/
def SIZE_MAX : Nat := 2 ^ 64 - 1

/-- The string buffer state `strbprivate_t` (src/strb.h lines 151-161), with the
flag bits of `p.flags` expanded into named booleans. -/
structure Strb where
  unputc_char : Nat
  restore_char : Nat
  err : Bool
  canUnputc : Bool
  canRestore : Bool
  overwrite : Bool
  external : Bool
  allocated : Bool
  autofree : Bool
  len : Nat
  size : Nat
  pos : Nat
  buf : Nat → Nat

instance : Inhabited Strb :=
  ⟨⟨0, 0, false, false, false, false, false, false, false, 0, 1, 0, fun _ => 0⟩⟩

/-- `memset(f + i, v, n)` on a byte array modelled as a function. -/
def memsetF (f : Nat → Nat) (i v n : Nat) : Nat → Nat :=
  fun j => if i ≤ j ∧ j < i + n then v else f j

/-- `memmove(f + dst, f + src, n)`: the source region is read before any byte of
the destination is written, which is exactly `memmove` semantics. -/
def memmoveF (f : Nat → Nat) (dst src n : Nat) : Nat → Nat :=
  fun j => if dst ≤ j ∧ j < dst + n then f (src + (j - dst)) else f j

/-- `memcpy(f + i, s, s.length)` copying from a byte list `s`. -/
def memcpyL (f : Nat → Nat) (i : Nat) (s : List Nat) : Nat → Nat :=
  fun j => if i ≤ j ∧ j < i + s.length then s.getD (j - i) 0 else f j

/-- `strnlen(s, n)` on a byte list (src/strb.c lines 68-75): the number of
characters before the first null, capped at `n`. -/
def strnlenL : List Nat → Nat → Nat
  | [], _ => 0
  | _ :: _, 0 => 0
  | c :: t, n + 1 => if c = 0 then 0 else strnlenL t n + 1

/-- `strnlen(f, n)` on a byte array modelled as a function: the index of the
first null character, capped at `n`. -/
def strnlenF (f : Nat → Nat) : Nat → Nat
  | 0 => 0
  | n + 1 => if f 0 = 0 then 0 else strnlenF (fun j => f (j + 1)) n + 1

/-- `set_err` (src/strb.c lines 381-385): set the sticky error latch. -/
def setErr (sb : Strb) : Strb := { sb with err := true }

/-- `init_use` (src/strb.c lines 123-135): initialise a buffer over an external
array of (already clamped) size `size` with initial length `len`.  The
uninitialised `unputc_char`/`restore_char` bytes are modelled as 0. -/
def init_use (size : Nat) (buf : Nat → Nat) (len : Nat) : Strb :=
  { unputc_char := 0, restore_char := 0, err := false,
    canUnputc := len ≠ 0, canRestore := false, overwrite := false,
    external := true, allocated := false, autofree := true,
    len := len, size := size, pos := len, buf := buf }

/-- `strb_use` (src/strb.c lines 137-149): adopt an external array, clamping its
size to `STRB_MAX_SIZE` and storing a terminator at offset 0. -/
def strb_use (size : Nat) (buf : Nat → Nat) : Strb :=
  let size' := if size > STRB_MAX_SIZE then STRB_MAX_SIZE else size
  init_use size' (fun j => if j = 0 then 0 else buf j) 0

/-- `strb_reuse` (src/strb.c lines 151-171): adopt an external array holding an
existing string; fails (returns a null pointer, modelled `none`) if no null
character occurs within the first `min size STRB_MAX_SIZE` characters. -/
def strb_reuse (size : Nat) (buf : Nat → Nat) : Option Strb :=
  let size' := if size > STRB_MAX_SIZE then STRB_MAX_SIZE else size
  let len := strnlenF buf size'
  if len = size' then none else some (init_use size' buf len)

/-- `strb_setmode` (src/strb.c lines 387-400).  `strb_insert = 0`,
`strb_overwrite = 1`. -/
def strb_setmode (sb : Strb) (mode : Int) : Int × Strb :=
  if mode = 0 ∨ mode = 1 then
    (0, { sb with canUnputc := false, overwrite := mode = 1 })
  else
    (-1, setErr sb)

/-- `strb_getmode` (src/strb.c lines 402-410). -/
def strb_getmode (sb : Strb) : Int :=
  if sb.overwrite then 1 else 0

/-- `strb_seek` (src/strb.c lines 412-427). -/
def strb_seek (sb : Strb) (pos : Nat) : Int × Strb :=
  if pos < STRB_MAX_SIZE then
    (0, { sb with pos := pos, canUnputc := false, canRestore := false })
  else
    (-1, setErr sb)

/-- `strb_tell` (src/strb.c lines 429-438). -/
def strb_tell (sb : Strb) : Nat := sb.pos

/-- `strb_len` (src/strb.c lines 375-379). -/
def strb_len (sb : Strb) : Nat := sb.len

/-- `strb_error` (src/strb.c lines 756-760). -/
def strb_error (sb : Strb) : Bool := sb.err

/-- `strb_clearerr` (src/strb.c lines 762-766). -/
def strb_clearerr (sb : Strb) : Strb := { sb with err := false }

/-- `strb_ensure` (src/strb.c lines 540-592): check that `n` more characters
plus a terminator fit above `top`, growing heap storage when permitted.
`none` models returning `false` (in which case the C code mutated nothing);
`some s` models returning `true` with the possibly-grown buffer `s`.
`allocOk` models whether `realloc`/`malloc` succeeds; `fill` models the
indeterminate bytes of freshly allocated storage. -/
def strb_ensure (sb : Strb) (n : Nat) (top : Nat) (allocOk : Bool) (fill : Nat) :
    Option Strb :=
  if n + top ≥ STRB_MAX_SIZE then none
  else
    let room := sb.size - top
    if n < room then some sb
    else if sb.external then none
    else
      let grown := if sb.size ≤ STRB_MAX_SIZE / STRB_GROW_FACTOR then
          sb.size * STRB_GROW_FACTOR else STRB_MAX_SIZE
      let new_size := if grown ≤ top + n then top + n + 1 else grown
      if allocOk then
        if sb.allocated then
          some { sb with
            buf := fun j => if j < sb.size then sb.buf j else fill,
            size := new_size }
        else
          some { sb with
            buf := fun j => if j < sb.len + 1 then sb.buf j else fill,
            size := new_size, allocated := true }
      else none

/-- The `top` computed by `strb_write` (src/strb.c lines 603-604): the
position, in overwrite mode or with a detached cursor; otherwise the length. -/
def writeTop (sb : Strb) : Nat :=
  if sb.overwrite ∨ sb.pos > sb.len then sb.pos else sb.len

/-- `strb_write` (src/strb.c lines 594-662), the central prepare-write
algorithm.  On success the result is `(some off, s)` where `off` is the offset
of the returned pointer within the array (the pre-call position) and `s` the
updated buffer; on failure it is `(none, setErr sb)`. -/
def strb_write (sb : Strb) (n : Nat) (allocOk : Bool) (fill : Nat) :
    Option Nat × Strb :=
  let old_len := sb.len
  let old_pos := sb.pos
  match strb_ensure sb n (writeTop sb) allocOk fill with
  | none => (none, setErr sb)
  | some s0 =>
    let s1 := if old_pos > old_len then
        { s0 with
          buf := memsetF s0.buf old_len 0 (old_pos - old_len + 1),
          len := old_pos }
      else s0
    let s2 := if sb.overwrite then
        { s1 with unputc_char :=
            if old_pos + n = 0 ∨ old_pos + n > old_len + 1 then 0
            else s1.buf (old_pos + n - 1) }
      else
        { s1 with
          buf := memmoveF s1.buf (old_pos + n) old_pos (s1.len + 1 - old_pos),
          len := s1.len + n }
    let s3 := { s2 with pos := old_pos + n }
    let s4 := if s3.pos > s3.len then
        { s3 with len := s3.pos, buf := Function.update s3.buf (old_pos + n) 0 }
      else s3
    let s5 := { s4 with restore_char := s4.buf (old_pos + n), canRestore := true }
    let s6 := if n ≠ 0 then { s5 with canUnputc := true } else s5
    (some old_pos, s6)

/-- Byte stored by `memset`/`memcpy` for an `int` character argument: conversion
to `unsigned char`. -/
def byteOf (c : Int) : Nat := (c % 256).toNat

/-- `strb_nputc` (src/strb.c lines 445-454). -/
def strb_nputc (sb : Strb) (c : Int) (n : Nat) (allocOk : Bool) (fill : Nat) :
    Int × Strb :=
  match strb_write sb n allocOk fill with
  | (none, s) => (-1, s)
  | (some off, s) => (c, { s with buf := memsetF s.buf off (byteOf c) n })

/-- `strb_putc` (src/strb.c lines 440-443). -/
def strb_putc (sb : Strb) (c : Int) (allocOk : Bool) (fill : Nat) : Int × Strb :=
  strb_nputc sb c 1 allocOk fill

/-- `strb_unputc` (src/strb.c lines 456-484).  The function asserts
`0 < pos ∧ pos ≤ len` whenever `F_CAN_UNPUTC` is set; that property is part of
the reachable-state invariant `WF` below. -/
def strb_unputc (sb : Strb) : Int × Strb :=
  if sb.canUnputc then
    let new_pos := sb.pos - 1
    let removed := sb.buf new_pos
    let s1 := if sb.overwrite then
        { sb with buf := Function.update sb.buf new_pos sb.unputc_char }
      else
        { sb with
          buf := memmoveF sb.buf new_pos sb.pos (sb.len - new_pos),
          len := sb.len - 1 }
    (Int.ofNat removed, { s1 with pos := new_pos, canUnputc := false, canRestore := false })
  else
    (-1, setErr sb)

/-- `strb_nputs` (src/strb.c lines 486-496). -/
def strb_nputs (sb : Strb) (str : List Nat) (n : Nat) (allocOk : Bool) (fill : Nat) :
    Int × Strb :=
  let l := strnlenL str n
  match strb_write sb l allocOk fill with
  | (none, s) => (-1, s)
  | (some off, s) => (0, { s with buf := memcpyL s.buf off (str.take l) })

/-- `strb_puts` (src/strb.c lines 498-501). -/
def strb_puts (sb : Strb) (str : List Nat) (allocOk : Bool) (fill : Nat) :
    Int × Strb :=
  strb_nputs sb str SIZE_MAX allocOk fill

/-- `strb_vputf` (src/strb.c lines 505-525).  The formatting facility is
abstracted: `out = none` models `vsnprintf` returning a negative length, and
`out = some o` models it rendering the byte sequence `o`.  The
save/`vsprintf`/restore dance on the byte at offset `len` nets out to copying
exactly `o` into the buffer at the returned region. -/
def strb_vputf (sb : Strb) (out : Option (List Nat)) (allocOk : Bool) (fill : Nat) :
    Int × Strb :=
  match out with
  | none => (-1, setErr sb)
  | some o =>
    match strb_write sb o.length allocOk fill with
    | (none, s) => (-1, setErr s)
    | (some off, s) => (0, { s with buf := memcpyL s.buf off o })

/-- `strb_split` (src/strb.c lines 664-669): prepare-write of 0 characters,
then store a terminator through the returned pointer.  When the inner
`strb_write` fails the C code dereferences a null pointer (the `assert(p)` is
compiled out); the model returns the post-failure state paired with `false` to
mark that the null-dereference branch was reached. -/
def strb_split (sb : Strb) (allocOk : Bool) (fill : Nat) : Strb × Bool :=
  match strb_write sb 0 allocOk fill with
  | (none, s) => (s, false)
  | (some off, s) => ({ s with buf := Function.update s.buf off 0 }, true)

/-- `strb_restore` (src/strb.c lines 671-681). -/
def strb_restore (sb : Strb) : Strb :=
  if sb.canRestore then
    { sb with
      buf := Function.update sb.buf sb.pos sb.restore_char,
      canRestore := false }
  else sb

/-- `strb_delto` (src/strb.c lines 683-711). -/
def strb_delto (sb : Strb) (pos : Nat) : Strb :=
  let len := sb.len
  let pos1 := if pos > len then len else pos
  let pos2 := if sb.pos > len then len else sb.pos
  let lo := if pos1 > pos2 then pos2 else pos1
  let hi := if pos1 > pos2 then pos1 else pos2
  let s1 := if sb.overwrite then sb
    else
      { sb with
        buf := memmoveF sb.buf lo hi (len + 1 - hi),
        len := len - (hi - lo) }
  { s1 with pos := lo, canUnputc := false, canRestore := false }

/-- `strb_empty` (src/strb.c lines 713-721). -/
def strb_empty (sb : Strb) : Strb :=
  { sb with
    len := 0, pos := 0, buf := Function.update sb.buf 0 0,
    canUnputc := false, canRestore := false }

/-- `strb_ncpy` (src/strb.c lines 723-727): empty the buffer, then append. -/
def strb_ncpy (sb : Strb) (str : List Nat) (n : Nat) (allocOk : Bool) (fill : Nat) :
    Int × Strb :=
  strb_nputs (strb_empty sb) str n allocOk fill

/-- `strb_cpy` (src/strb.c lines 729-733). -/
def strb_cpy (sb : Strb) (str : List Nat) (allocOk : Bool) (fill : Nat) :
    Int × Strb :=
  strb_ncpy sb str SIZE_MAX allocOk fill

/-- `strb_vprintf` (src/strb.c lines 737-741): empty the buffer, then append
formatted output.  `strb_printf` (lines 743-752) is the variadic wrapper of
this function. -/
def strb_vprintf (sb : Strb) (out : Option (List Nat)) (allocOk : Bool) (fill : Nat) :
    Int × Strb :=
  strb_vputf (strb_empty sb) out allocOk fill

/-- Direct stores by a caller into the region returned by `strb_write`: the
caller writes the byte list `w` starting at offset `off`.  This is not a
library function; it models the caller-side `memcpy`/`vsprintf` into the
returned pointer. -/
def directWrite (sb : Strb) (off : Nat) (w : List Nat) : Strb :=
  { sb with buf := memcpyL sb.buf off w }

/-- The first `k` bytes of the backing array, as a list (used to state facts
about the visible contents `strb_ptr`). -/
def contentsUpTo (sb : Strb) (k : Nat) : List Nat :=
  (List.range k).map sb.buf

/-- The public mutating operations of the library, with their arguments.
Formatted output is represented by its abstracted rendering (see
`strb_vputf`); `strb_putf`/`strb_printf` are the variadic wrappers of
`strb_vputf`/`strb_vprintf`. -/
inductive Op where
  | setmode (m : Int)
  | seek (p : Nat)
  | putc (c : Int)
  | nputc (c : Int) (n : Nat)
  | unputc
  | puts (s : List Nat)
  | nputs (s : List Nat) (n : Nat)
  | vputf (out : Option (List Nat))
  | write (n : Nat)
  | split
  | restore
  | delto (p : Nat)
  | ncpy (s : List Nat) (n : Nat)
  | cpy (s : List Nat)
  | vprintf (out : Option (List Nat))
  | clearerr

/-- The replace-whole-content operations (`strb_ncpy`, `strb_cpy`,
`strb_vprintf`, and hence `strb_printf`), which call `strb_empty` before
appending. -/
def Op.isReplace : Op → Bool
  | .ncpy _ _ => true
  | .cpy _ => true
  | .vprintf _ => true
  | _ => false

/-- Run one public mutating operation, returning the new state and whether the
operation succeeded (per its documented success indication: a zero return, a
non-`EOF` return, or a non-null pointer). -/
def runOp (op : Op) (sb : Strb) (allocOk : Bool) (fill : Nat) : Strb × Bool :=
  match op with
  | .setmode m => ((strb_setmode sb m).2, (strb_setmode sb m).1 == 0)
  | .seek p => ((strb_seek sb p).2, (strb_seek sb p).1 == 0)
  | .putc c => ((strb_putc sb c allocOk fill).2, (strb_write sb 1 allocOk fill).1.isSome)
  | .nputc c n => ((strb_nputc sb c n allocOk fill).2, (strb_write sb n allocOk fill).1.isSome)
  | .unputc => ((strb_unputc sb).2, sb.canUnputc)
  | .puts s => ((strb_puts sb s allocOk fill).2, (strb_puts sb s allocOk fill).1 == 0)
  | .nputs s n => ((strb_nputs sb s n allocOk fill).2, (strb_nputs sb s n allocOk fill).1 == 0)
  | .vputf out => ((strb_vputf sb out allocOk fill).2, (strb_vputf sb out allocOk fill).1 == 0)
  | .write n => ((strb_write sb n allocOk fill).2, (strb_write sb n allocOk fill).1.isSome)
  | .split => strb_split sb allocOk fill
  | .restore => (strb_restore sb, true)
  | .delto p => (strb_delto sb p, true)
  | .ncpy s n => ((strb_ncpy sb s n allocOk fill).2, (strb_ncpy sb s n allocOk fill).1 == 0)
  | .cpy s => ((strb_cpy sb s allocOk fill).2, (strb_cpy sb s allocOk fill).1 == 0)
  | .vprintf out => ((strb_vprintf sb out allocOk fill).2, (strb_vprintf sb out allocOk fill).1 == 0)
  | .clearerr => (strb_clearerr sb, true)

/-- The reachable-state invariant of a string buffer: the length is strictly
below the capacity, the capacity never exceeds `STRB_MAX_SIZE`, a terminator
sits at offset `len`, the position is representable, and the bookkeeping for
`strb_unputc`/`strb_restore` is consistent (these last two components are the
facts asserted by `strb_unputc` and needed for `strb_restore` not to clobber
the terminator). -/
def WF (sb : Strb) : Prop :=
  sb.len < sb.size ∧
  sb.size ≤ STRB_MAX_SIZE ∧
  sb.buf sb.len = 0 ∧
  sb.pos < STRB_MAX_SIZE ∧
  (sb.canUnputc = true → 1 ≤ sb.pos ∧ sb.pos ≤ sb.len) ∧
  (sb.canRestore = true → sb.pos ≤ sb.len ∧ (sb.pos = sb.len → sb.restore_char = 0))

instance (sb : Strb) : Decidable (WF sb) := by
  unfold WF; infer_instance

/-! ### Helper lemmas about the memory primitives -/

theorem memsetF_apply (f : Nat → Nat) (i v n j : Nat) :
    memsetF f i v n j = if i ≤ j ∧ j < i + n then v else f j := rfl

theorem memmoveF_apply (f : Nat → Nat) (d s n j : Nat) :
    memmoveF f d s n j = if d ≤ j ∧ j < d + n then f (s + (j - d)) else f j := rfl

theorem memcpyL_apply (f : Nat → Nat) (i : Nat) (s : List Nat) (j : Nat) :
    memcpyL f i s j = if i ≤ j ∧ j < i + s.length then s.getD (j - i) 0 else f j := rfl

/-! ### Helper lemmas about `strb_ensure` -/

/-- On success, `strb_ensure` changes at most the storage (`buf`, `size`,
`allocated`): every other field is preserved, the capacity does not shrink,
there is room for `n` characters plus a terminator above `top`, the capacity
stays representable, and the bytes up to the old length (terminator included)
are preserved. -/
theorem ensure_some_spec {sb : Strb} {n top : Nat} {aOk : Bool} {fill : Nat} {s0 : Strb}
    (h : strb_ensure sb n top aOk fill = some s0)
    (hls : sb.len < sb.size) (hsm : sb.size ≤ STRB_MAX_SIZE) :
    s0.len = sb.len ∧ s0.pos = sb.pos ∧ s0.err = sb.err ∧
    s0.overwrite = sb.overwrite ∧ s0.external = sb.external ∧
    s0.canUnputc = sb.canUnputc ∧ s0.canRestore = sb.canRestore ∧
    s0.unputc_char = sb.unputc_char ∧ s0.restore_char = sb.restore_char ∧
    s0.autofree = sb.autofree ∧
    sb.size ≤ s0.size ∧ top + n < s0.size ∧ s0.size ≤ STRB_MAX_SIZE ∧
    (∀ j, j ≤ sb.len → s0.buf j = sb.buf j) := by
  unfold strb_ensure at h
  by_cases h1 : n + top ≥ STRB_MAX_SIZE
  · simp [h1] at h
  · rw [if_neg h1] at h
    simp only at h
    by_cases h2 : n < sb.size - top
    · rw [if_pos h2] at h
      obtain rfl : sb = s0 := by simpa using h
      refine ⟨rfl, rfl, rfl, rfl, rfl, rfl, rfl, rfl, rfl, rfl, le_refl _, by omega, hsm,
        fun j _ => rfl⟩
    · rw [if_neg h2] at h
      by_cases h3 : sb.external
      · simp [h3] at h
      · rw [if_neg h3] at h
        by_cases h4 : aOk
        · rw [if_pos h4] at h
          have hmax : STRB_MAX_SIZE = 65535 := rfl
          have hgf : STRB_GROW_FACTOR = 2 := rfl
          by_cases h5 : sb.allocated
          · rw [if_pos h5] at h
            obtain rfl := Option.some.inj h
            refine ⟨rfl, rfl, rfl, rfl, rfl, rfl, rfl, rfl, rfl, rfl, ?_, ?_, ?_, ?_⟩
            · simp only [hmax, hgf]
              split_ifs <;> omega
            · simp only [hmax, hgf]
              split_ifs <;> omega
            · simp only [hmax, hgf]
              split_ifs <;> omega
            · intro j hj
              simp only
              rw [if_pos (by omega)]
          · rw [if_neg h5] at h
            obtain rfl := Option.some.inj h
            refine ⟨rfl, rfl, rfl, rfl, rfl, rfl, rfl, rfl, rfl, rfl, ?_, ?_, ?_, ?_⟩
            · simp only [hmax, hgf]
              split_ifs <;> omega
            · simp only [hmax, hgf]
              split_ifs <;> omega
            · simp only [hmax, hgf]
              split_ifs <;> omega
            · intro j hj
              simp only
              rw [if_pos (by omega)]
        · simp [h4] at h

/-! ### Helper lemmas about `strb_write` -/

/-- A failing `strb_write` call only sets the error latch: `strb_ensure`
mutates nothing on its failure paths, and the only write to the state before
returning null is `set_err`. -/
theorem write_none_spec {sb : Strb} {n : Nat} {aOk : Bool} {fill : Nat} {s : Strb}
    (h : strb_write sb n aOk fill = (none, s)) : s = setErr sb := by
  unfold strb_write at h
  cases hE : strb_ensure sb n (writeTop sb) aOk fill with
  | none =>
    rw [hE] at h
    exact ((Prod.mk.injEq _ _ _ _ ▸ h).2).symm
  | some s0 =>
    rw [hE] at h
    simp at h

/-- Characterisation of a successful `strb_write` call: returned offset, new
position and length, capacity bounds, terminator placement, flag effects, the
overwrite-mode frame property, and the overwrite-mode undo byte. -/
theorem write_some_spec {sb : Strb} {n : Nat} {aOk : Bool} {fill : Nat}
    {off : Nat} {s' : Strb}
    (h : strb_write sb n aOk fill = (some off, s'))
    (hls : sb.len < sb.size) (hsm : sb.size ≤ STRB_MAX_SIZE)
    (hterm : sb.buf sb.len = 0) :
    off = sb.pos ∧
    s'.pos = sb.pos + n ∧
    s'.len = (if sb.overwrite then max sb.len (sb.pos + n) else max sb.len sb.pos + n) ∧
    sb.size ≤ s'.size ∧ s'.size ≤ STRB_MAX_SIZE ∧
    s'.pos ≤ s'.len ∧ s'.len < s'.size ∧
    s'.buf s'.len = 0 ∧
    s'.err = sb.err ∧ s'.overwrite = sb.overwrite ∧ s'.external = sb.external ∧
    s'.canRestore = true ∧ s'.restore_char = s'.buf (sb.pos + n) ∧
    s'.canUnputc = (if n = 0 then sb.canUnputc else true) ∧
    (sb.overwrite = true → ∀ j, sb.pos + n ≤ j → j ≤ sb.len → s'.buf j = sb.buf j) ∧
    (sb.overwrite = true →
      s'.unputc_char =
        if sb.pos + n = 0 ∨ sb.pos + n > sb.len + 1 then 0
        else sb.buf (sb.pos + n - 1)) := by
  unfold strb_write at h
  cases hE : strb_ensure sb n (writeTop sb) aOk fill with
  | none =>
    rw [hE] at h
    simp at h
  | some s0 =>
    rw [hE] at h
    obtain ⟨E_len, E_pos, E_err, E_ow, E_ext, E_cu, E_cr, E_uc, E_rc, E_af,
      E_sz1, E_room, E_sz2, E_buf⟩ := ensure_some_spec hE hls hsm
    rw [Prod.mk.injEq] at h
    obtain ⟨h1, h2⟩ := h
    obtain rfl := Option.some.inj h1
    subst h2
    by_cases ho : sb.overwrite = true <;> by_cases hd : sb.pos > sb.len
    · -- overwrite mode, detached cursor
      have hw : writeTop sb = sb.pos := by simp [writeTop, ho, hd]
      rw [hw] at E_room
      by_cases hn : n = 0
      · subst hn
        simp only [ho, hd, E_len, E_pos, E_err, E_ow, E_ext, E_cu, E_cr, E_uc,
          E_rc, E_af, Nat.add_zero, lt_self_iff_false, if_false, ite_false, ite_true,
          if_true, ne_eq, eq_self_iff_true, not_true, true_and]
        repeat' apply And.intro
        all_goals try rfl
        all_goals try omega
        all_goals try (rw [memsetF_apply]; rw [if_pos (by omega)])
        all_goals
          intro _
          split_ifs
          · rfl
          · rw [memsetF_apply]
            rw [if_pos (by omega)]
            rw [show sb.pos - 1 = sb.len from by omega, hterm]
      · have hb : sb.pos + n > sb.pos := by omega
        simp only [ho, hd, hn, hb, E_len, E_pos, E_err, E_ow, E_ext, E_cu, E_cr, E_uc,
          E_rc, E_af, if_false, ite_false, ite_true, if_true, ne_eq,
          not_false_eq_true, true_and]
        repeat' apply And.intro
        all_goals try rfl
        all_goals try omega
        all_goals try (rw [Function.update_same])
        all_goals
          intro _
          rw [if_pos (by omega : sb.pos + n = 0 ∨ sb.pos + n > sb.len + 1)]
          rw [if_pos (by omega : sb.pos + n = 0 ∨ sb.pos + n > sb.len + 1)]
    · -- overwrite mode, cursor at or before the length
      have hw : writeTop sb = sb.pos := by simp [writeTop, ho, hd]
      rw [hw] at E_room
      by_cases hn : n = 0
      · subst hn
        simp only [ho, hd, E_len, E_pos, E_err, E_ow, E_ext, E_cu, E_cr, E_uc,
          E_rc, E_af, Nat.add_zero, lt_self_iff_false, if_false, ite_false, ite_true,
          if_true, ne_eq, eq_self_iff_true, not_true, true_and]
        repeat' apply And.intro
        all_goals try rfl
        all_goals try omega
        all_goals try (rw [E_buf _ le_rfl]; exact hterm)
        all_goals try (intro _ j hj1 hj2; exact E_buf j hj2)
        all_goals
          intro _
          split_ifs
          · rfl
          · rw [E_buf _ (by omega)]
      · by_cases hb : sb.pos + n > sb.len
        · simp only [ho, hd, hn, hb, E_len, E_pos, E_err, E_ow, E_ext, E_cu, E_cr, E_uc,
            E_rc, E_af, if_false, ite_false, ite_true, if_true, ne_eq,
            not_false_eq_true, true_and]
          repeat' apply And.intro
          all_goals try rfl
          all_goals try omega
          all_goals try (rw [Function.update_same])
          all_goals try (intro _ j hj1 hj2; exact ((by omega : False)).elim)
          all_goals
            intro _
            split_ifs
            · rfl
            · rw [E_buf _ (by omega)]
        · simp only [ho, hd, hn, hb, E_len, E_pos, E_err, E_ow, E_ext, E_cu, E_cr, E_uc,
            E_rc, E_af, if_false, ite_false, ite_true, if_true, ne_eq,
            not_false_eq_true, true_and]
          repeat' apply And.intro
          all_goals try rfl
          all_goals try omega
          all_goals try (rw [E_buf _ le_rfl]; exact hterm)
          all_goals try (intro _ j hj1 hj2; exact E_buf j hj2)
          all_goals
            intro _
            split_ifs
            · rfl
            · rw [E_buf _ (by omega)]
    · -- insert mode, detached cursor
      have hw : writeTop sb = sb.pos := by simp [writeTop, ho, hd]
      rw [hw] at E_room
      have hb : ¬ sb.pos + n > sb.pos + n := by omega
      by_cases hn : n = 0
      · subst hn
        simp only [ho, hd, hb, E_len, E_pos, E_err, E_ow, E_ext, E_cu, E_cr, E_uc,
          E_rc, E_af, Nat.add_zero, lt_self_iff_false, if_false, ite_false, ite_true,
          if_true, ne_eq, eq_self_iff_true, not_true, true_and, false_implies,
          Bool.false_eq_true, false_and, and_true]
        repeat' apply And.intro
        all_goals try rfl
        all_goals try omega
        all_goals
          rw [memmoveF_apply]
          rw [if_pos (by omega)]
          rw [memsetF_apply]
          rw [if_pos (by omega)]
      · simp only [ho, hd, hn, hb, E_len, E_pos, E_err, E_ow, E_ext, E_cu, E_cr, E_uc,
          E_rc, E_af, if_false, ite_false, ite_true, if_true, ne_eq,
          not_false_eq_true, true_and, false_implies, Bool.false_eq_true, false_and,
          and_true, lt_self_iff_false]
        repeat' apply And.intro
        all_goals try rfl
        all_goals try omega
        all_goals
          rw [memmoveF_apply]
          rw [if_pos (by omega)]
          rw [memsetF_apply]
          rw [if_pos (by omega)]
    · -- insert mode, cursor at or before the length
      have hw : writeTop sb = sb.len := by simp [writeTop, ho, hd]
      rw [hw] at E_room
      have hb : ¬ sb.pos + n > sb.len + n := by omega
      by_cases hn : n = 0
      · subst hn
        simp only [ho, hd, hb, E_len, E_pos, E_err, E_ow, E_ext, E_cu, E_cr, E_uc,
          E_rc, E_af, Nat.add_zero, lt_self_iff_false, if_false, ite_false, ite_true,
          if_true, ne_eq, eq_self_iff_true, not_true, true_and, false_implies,
          Bool.false_eq_true, false_and, and_true]
        repeat' apply And.intro
        all_goals try rfl
        all_goals try omega
        all_goals
          rw [memmoveF_apply]
          rw [if_pos (by omega)]
          rw [show sb.pos + (sb.len - sb.pos) = sb.len from by omega]
          rw [E_buf _ le_rfl]
          exact hterm
      · simp only [ho, hd, hn, hb, E_len, E_pos, E_err, E_ow, E_ext, E_cu, E_cr, E_uc,
          E_rc, E_af, if_false, ite_false, ite_true, if_true, ne_eq,
          not_false_eq_true, true_and, false_implies, Bool.false_eq_true, false_and,
          and_true]
        repeat' apply And.intro
        all_goals try rfl
        all_goals try omega
        all_goals
          rw [memmoveF_apply]
          rw [if_pos (by omega)]
          rw [show sb.pos + (sb.len + n - (sb.pos + n)) = sb.len from by omega]
          rw [E_buf _ le_rfl]
          exact hterm

/-! ### Invariant preservation -/

theorem strnlenL_le_length (s : List Nat) (n : Nat) : strnlenL s n ≤ s.length := by
  induction s generalizing n with
  | nil => simp [strnlenL]
  | cons c t ih =>
    cases n with
    | zero => simp [strnlenL]
    | succ m =>
      simp only [strnlenL, List.length_cons]
      split
      · omega
      · have := ih m
        omega

theorem take_strnlenL_length (s : List Nat) (n : Nat) :
    (s.take (strnlenL s n)).length = strnlenL s n := by
  rw [List.length_take]
  have := strnlenL_le_length s n
  omega

theorem WF_setErr {sb : Strb} (h : WF sb) : WF (setErr sb) := h

/-- Changing only the backing array, while keeping the byte at offset `len`,
preserves the invariant. -/
theorem WF_buf_eq {s' : Strb} (h : WF s') {g : Nat → Nat}
    (hg : g s'.len = s'.buf s'.len) : WF { s' with buf := g } := by
  obtain ⟨a, b, c, d, e, f⟩ := h
  exact ⟨a, b, hg.trans c, d, e, f⟩

theorem write_WF (sb : Strb) (n : Nat) (aOk : Bool) (fill : Nat) (h : WF sb) :
    WF (strb_write sb n aOk fill).2 := by
  obtain ⟨h1, h2, h3, h4, h5, h6⟩ := h
  rcases hw : strb_write sb n aOk fill with ⟨o, s⟩
  cases o with
  | none =>
    rw [write_none_spec hw]
    exact ⟨h1, h2, h3, h4, h5, h6⟩
  | some off =>
    show WF s
    obtain ⟨W0, W1, W2, W3, W4, W5, W6, W7, W8, W9, W10, W11, W12, W13, W14, W15⟩ :=
      write_some_spec hw h1 h2 h3
    refine ⟨W6, W4, W7, by omega, ?_, ?_⟩
    · rw [W13]
      intro hcu
      split at hcu
      · rename_i hz
        subst hz
        have := h5 hcu
        omega
      · omega
    · intro _
      refine ⟨W5, ?_⟩
      intro hpl
      rw [W12, ← W1, hpl]
      exact W7

theorem nputc_WF (sb : Strb) (c : Int) (n : Nat) (aOk : Bool) (fill : Nat) (h : WF sb) :
    WF (strb_nputc sb c n aOk fill).2 := by
  have hw' := write_WF sb n aOk fill h
  rcases hw : strb_write sb n aOk fill with ⟨o, s⟩
  rw [hw] at hw'
  simp only [strb_nputc, hw]
  cases o with
  | none => exact hw'
  | some off =>
    have hws : WF s := hw'
    show WF { s with buf := memsetF s.buf off (byteOf c) n }
    obtain ⟨W0, W1, W2, W3, W4, W5, W6, W7, W8, W9, W10, W11, W12, W13, W14, W15⟩ :=
      write_some_spec hw h.1 h.2.1 h.2.2.1
    refine WF_buf_eq hws ?_
    rw [memsetF_apply, if_neg (by omega)]

theorem nputs_WF (sb : Strb) (str : List Nat) (n : Nat) (aOk : Bool) (fill : Nat)
    (h : WF sb) : WF (strb_nputs sb str n aOk fill).2 := by
  have hw' := write_WF sb (strnlenL str n) aOk fill h
  rcases hw : strb_write sb (strnlenL str n) aOk fill with ⟨o, s⟩
  rw [hw] at hw'
  simp only [strb_nputs, hw]
  cases o with
  | none => exact hw'
  | some off =>
    have hws : WF s := hw'
    show WF { s with buf := memcpyL s.buf off (str.take (strnlenL str n)) }
    obtain ⟨W0, W1, W2, W3, W4, W5, W6, W7, W8, W9, W10, W11, W12, W13, W14, W15⟩ :=
      write_some_spec hw h.1 h.2.1 h.2.2.1
    refine WF_buf_eq hws ?_
    rw [memcpyL_apply, take_strnlenL_length, if_neg (by omega)]

theorem vputf_WF (sb : Strb) (out : Option (List Nat)) (aOk : Bool) (fill : Nat)
    (h : WF sb) : WF (strb_vputf sb out aOk fill).2 := by
  cases out with
  | none => exact WF_setErr h
  | some o =>
    have hw' := write_WF sb o.length aOk fill h
    rcases hw : strb_write sb o.length aOk fill with ⟨r, s⟩
    rw [hw] at hw'
    simp only [strb_vputf, hw]
    cases r with
    | none => exact WF_setErr hw'
    | some off =>
      have hws : WF s := hw'
      show WF { s with buf := memcpyL s.buf off o }
      obtain ⟨W0, W1, W2, W3, W4, W5, W6, W7, W8, W9, W10, W11, W12, W13, W14, W15⟩ :=
        write_some_spec hw h.1 h.2.1 h.2.2.1
      refine WF_buf_eq hws ?_
      rw [memcpyL_apply, if_neg (by omega)]

/-- The index rewriting common to the terminator-preservation proofs of the
`memmove`-based operations. -/
theorem memmove_term (f : Nat → Nat) (lo hi L : Nat) (hlo : lo ≤ hi) (hhi : hi ≤ L)
    (hterm : f L = 0) : memmoveF f lo hi (L + 1 - hi) (L - (hi - lo)) = 0 := by
  rw [memmoveF_apply, if_pos (by omega),
    show hi + (L - (hi - lo) - lo) = L from by omega]
  exact hterm

/-- Constructor form of the invariant, used to state the proof obligations of
an explicitly-built state with its fields already projected. -/
theorem WF_mk {uc rc : Nat} {er cu cr ov ex al af : Bool} {L S P : Nat} {B : Nat → Nat}
    (x1 : L < S) (x2 : S ≤ STRB_MAX_SIZE) (x3 : B L = 0) (x4 : P < STRB_MAX_SIZE)
    (x5 : cu = true → 1 ≤ P ∧ P ≤ L)
    (x6 : cr = true → P ≤ L ∧ (P = L → rc = 0)) :
    WF (Strb.mk uc rc er cu cr ov ex al af L S P B) :=
  ⟨x1, x2, x3, x4, x5, x6⟩

theorem setmode_WF (sb : Strb) (m : Int) (h : WF sb) : WF (strb_setmode sb m).2 := by
  obtain ⟨h1, h2, h3, h4, h5, h6⟩ := h
  unfold strb_setmode
  split
  · exact ⟨h1, h2, h3, h4, by simp, h6⟩
  · exact ⟨h1, h2, h3, h4, h5, h6⟩

theorem seek_WF (sb : Strb) (p : Nat) (h : WF sb) : WF (strb_seek sb p).2 := by
  obtain ⟨h1, h2, h3, h4, h5, h6⟩ := h
  unfold strb_seek
  split
  · rename_i hp
    exact ⟨h1, h2, h3, hp, by simp, by simp⟩
  · exact ⟨h1, h2, h3, h4, h5, h6⟩

theorem unputc_WF (sb : Strb) (h : WF sb) : WF (strb_unputc sb).2 := by
  obtain ⟨h1, h2, h3, h4, h5, h6⟩ := h
  by_cases hcu : sb.canUnputc = true
  · obtain ⟨hp1, hp2⟩ := h5 hcu
    by_cases ho : sb.overwrite = true
    · simp only [strb_unputc, hcu, ho, if_true, ite_true]
      refine ⟨h1, h2, ?_, show sb.pos - 1 < STRB_MAX_SIZE from by omega, by simp, by simp⟩
      show Function.update sb.buf (sb.pos - 1) sb.unputc_char sb.len = 0
      rw [Function.update_noteq (by omega)]
      exact h3
    · simp only [strb_unputc, hcu, ho, if_true, ite_true, if_false, ite_false]
      refine ⟨show sb.len - 1 < sb.size from by omega, h2, ?_,
        show sb.pos - 1 < STRB_MAX_SIZE from by omega, by simp, by simp⟩
      show memmoveF sb.buf (sb.pos - 1) sb.pos (sb.len - (sb.pos - 1)) (sb.len - 1) = 0
      rw [memmoveF_apply, if_pos (by omega),
        show sb.pos + (sb.len - 1 - (sb.pos - 1)) = sb.len from by omega]
      exact h3
  · simp only [strb_unputc, hcu, if_false, ite_false]
    exact WF_setErr ⟨h1, h2, h3, h4, h5, h6⟩

theorem restore_WF (sb : Strb) (h : WF sb) : WF (strb_restore sb) := by
  obtain ⟨h1, h2, h3, h4, h5, h6⟩ := h
  unfold strb_restore
  by_cases hcr : sb.canRestore = true
  · obtain ⟨hr1, hr2⟩ := h6 hcr
    rw [if_pos hcr]
    refine ⟨h1, h2, ?_, h4, h5, by simp⟩
    show Function.update sb.buf sb.pos sb.restore_char sb.len = 0
    by_cases hpl : sb.pos = sb.len
    · rw [← hpl, Function.update_same]
      exact hr2 hpl
    · rw [Function.update_noteq (Ne.symm hpl)]
      exact h3
  · rw [if_neg hcr]
    exact ⟨h1, h2, h3, h4, h5, h6⟩

theorem delto_WF (sb : Strb) (p : Nat) (h : WF sb) : WF (strb_delto sb p) := by
  obtain ⟨h1, h2, h3, h4, h5, h6⟩ := h
  by_cases ho : sb.overwrite = true
  · simp only [strb_delto, ho, if_true, ite_true]
    refine WF_mk h1 h2 h3 ?_ (by simp) (by simp)
    split_ifs <;> ((try dsimp only); omega)
  · simp only [strb_delto, ho, if_false, ite_false]
    refine WF_mk ?_ h2 ?_ ?_ (by simp) (by simp)
    · split_ifs <;> ((try dsimp only); omega)
    · split_ifs
      all_goals try dsimp only
      all_goals first
        | exact h3
        | (refine memmove_term _ _ _ _ ?_ ?_ h3 <;> omega)
    · split_ifs <;> ((try dsimp only); omega)

theorem split_WF (sb : Strb) (aOk : Bool) (fill : Nat) (h : WF sb) :
    WF (strb_split sb aOk fill).1 := by
  have hw' := write_WF sb 0 aOk fill h
  rcases hw : strb_write sb 0 aOk fill with ⟨o, s⟩
  rw [hw] at hw'
  simp only [strb_split, hw]
  cases o with
  | none => exact hw'
  | some off =>
    have hws : WF s := hw'
    show WF { s with buf := Function.update s.buf off 0 }
    refine WF_buf_eq hws ?_
    by_cases hol : off = s.len
    · rw [hol, Function.update_same, hws.2.2.1]
    · rw [Function.update_noteq (Ne.symm hol)]

theorem empty_WF (sb : Strb) (h : WF sb) : WF (strb_empty sb) := by
  obtain ⟨h1, h2, h3, h4, h5, h6⟩ := h
  unfold strb_empty
  refine WF_mk (by omega) h2 ?_ (by decide) (by simp) (by simp)
  rw [Function.update_same]

/-- Every public mutating operation preserves the buffer invariant. -/
theorem runOp_WF (op : Op) (sb : Strb) (aOk : Bool) (fill : Nat) (h : WF sb) :
    WF (runOp op sb aOk fill).1 := by
  cases op with
  | setmode m => exact setmode_WF sb m h
  | seek p => exact seek_WF sb p h
  | putc c => exact nputc_WF sb c 1 aOk fill h
  | nputc c n => exact nputc_WF sb c n aOk fill h
  | unputc => exact unputc_WF sb h
  | puts s => exact nputs_WF sb s SIZE_MAX aOk fill h
  | nputs s n => exact nputs_WF sb s n aOk fill h
  | vputf o => exact vputf_WF sb o aOk fill h
  | write n => exact write_WF sb n aOk fill h
  | split => exact split_WF sb aOk fill h
  | restore => exact restore_WF sb h
  | delto p => exact delto_WF sb p h
  | ncpy s n => exact nputs_WF _ s n aOk fill (empty_WF sb h)
  | cpy s => exact nputs_WF _ s SIZE_MAX aOk fill (empty_WF sb h)
  | vprintf o => exact vputf_WF _ o aOk fill (empty_WF sb h)
  | clearerr => exact ⟨h.1, h.2.1, h.2.2.1, h.2.2.2.1, h.2.2.2.2.1, h.2.2.2.2.2⟩

/-! ### Failure atomicity -/

/-- Whenever a public mutating operation fails, the final state is the sticky
error latch applied to: the pre-call state for every operation except the
replace-content family, and the emptied buffer for `strb_ncpy` / `strb_cpy` /
`strb_vprintf` (which call `strb_empty` before appending). -/
theorem runOp_fail (op : Op) (sb : Strb) (aOk : Bool) (fill : Nat) (sb' : Strb)
    (h : runOp op sb aOk fill = (sb', false)) :
    sb' = setErr (if op.isReplace then strb_empty sb else sb) := by
  cases op with
  | setmode m =>
    simp only [runOp, Op.isReplace, Bool.false_eq_true, if_false, ite_false] at h ⊢
    unfold strb_setmode at h
    split at h
    · simp at h
    · simp only [Prod.mk.injEq] at h
      exact h.1.symm
  | seek p =>
    simp only [runOp, Op.isReplace, Bool.false_eq_true, if_false, ite_false] at h ⊢
    unfold strb_seek at h
    split at h
    · simp at h
    · simp only [Prod.mk.injEq] at h
      exact h.1.symm
  | putc c =>
    simp only [runOp, Op.isReplace, Bool.false_eq_true, if_false, ite_false] at h ⊢
    rcases hw : strb_write sb 1 aOk fill with ⟨o, st⟩
    simp only [strb_putc, strb_nputc, hw] at h
    cases o with
    | some off => simp at h
    | none =>
      rw [write_none_spec hw] at h
      simp only [Prod.mk.injEq] at h
      exact h.1.symm
  | nputc c n =>
    simp only [runOp, Op.isReplace, Bool.false_eq_true, if_false, ite_false] at h ⊢
    rcases hw : strb_write sb n aOk fill with ⟨o, st⟩
    simp only [strb_nputc, hw] at h
    cases o with
    | some off => simp at h
    | none =>
      rw [write_none_spec hw] at h
      simp only [Prod.mk.injEq] at h
      exact h.1.symm
  | unputc =>
    simp only [runOp, Op.isReplace, Bool.false_eq_true, if_false, ite_false] at h ⊢
    simp only [Prod.mk.injEq] at h
    obtain ⟨h1, h2⟩ := h
    unfold strb_unputc at h1
    rw [if_neg (by simp [h2])] at h1
    exact h1.symm
  | puts s =>
    simp only [runOp, Op.isReplace, Bool.false_eq_true, if_false, ite_false] at h ⊢
    rcases hw : strb_write sb (strnlenL s SIZE_MAX) aOk fill with ⟨o, st⟩
    simp only [strb_puts, strb_nputs, hw] at h
    cases o with
    | some off => simp at h
    | none =>
      rw [write_none_spec hw] at h
      simp only [Prod.mk.injEq] at h
      exact h.1.symm
  | nputs s n =>
    simp only [runOp, Op.isReplace, Bool.false_eq_true, if_false, ite_false] at h ⊢
    rcases hw : strb_write sb (strnlenL s n) aOk fill with ⟨o, st⟩
    simp only [strb_nputs, hw] at h
    cases o with
    | some off => simp at h
    | none =>
      rw [write_none_spec hw] at h
      simp only [Prod.mk.injEq] at h
      exact h.1.symm
  | vputf out =>
    simp only [runOp, Op.isReplace, Bool.false_eq_true, if_false, ite_false] at h ⊢
    cases out with
    | none =>
      simp only [strb_vputf, Prod.mk.injEq] at h
      exact h.1.symm
    | some o =>
      rcases hw : strb_write sb o.length aOk fill with ⟨r, st⟩
      simp only [strb_vputf, hw] at h
      cases r with
      | some off => simp at h
      | none =>
        rw [write_none_spec hw] at h
        simp only [Prod.mk.injEq] at h
        exact h.1.symm
  | write n =>
    simp only [runOp, Op.isReplace, Bool.false_eq_true, if_false, ite_false] at h ⊢
    rcases hw : strb_write sb n aOk fill with ⟨o, st⟩
    rw [hw] at h
    cases o with
    | some off => simp at h
    | none =>
      rw [write_none_spec hw] at h
      simp only [Prod.mk.injEq] at h
      exact h.1.symm
  | split =>
    simp only [runOp, Op.isReplace, Bool.false_eq_true, if_false, ite_false] at h ⊢
    rcases hw : strb_write sb 0 aOk fill with ⟨o, st⟩
    simp only [strb_split, hw] at h
    cases o with
    | some off => simp at h
    | none =>
      rw [write_none_spec hw] at h
      simp only [Prod.mk.injEq] at h
      exact h.1.symm
  | restore => simp [runOp] at h
  | delto p => simp [runOp] at h
  | clearerr => simp [runOp] at h
  | ncpy s n =>
    simp only [runOp, Op.isReplace, if_true, ite_true] at h ⊢
    rcases hw : strb_write (strb_empty sb) (strnlenL s n) aOk fill with ⟨o, st⟩
    simp only [strb_ncpy, strb_nputs, hw] at h
    cases o with
    | some off => simp at h
    | none =>
      rw [write_none_spec hw] at h
      simp only [Prod.mk.injEq] at h
      exact h.1.symm
  | cpy s =>
    simp only [runOp, Op.isReplace, if_true, ite_true] at h ⊢
    rcases hw : strb_write (strb_empty sb) (strnlenL s SIZE_MAX) aOk fill with ⟨o, st⟩
    simp only [strb_cpy, strb_ncpy, strb_nputs, hw] at h
    cases o with
    | some off => simp at h
    | none =>
      rw [write_none_spec hw] at h
      simp only [Prod.mk.injEq] at h
      exact h.1.symm
  | vprintf out =>
    simp only [runOp, Op.isReplace, if_true, ite_true] at h ⊢
    cases out with
    | none =>
      simp only [strb_vprintf, strb_vputf, Prod.mk.injEq] at h
      exact h.1.symm
    | some o =>
      rcases hw : strb_write (strb_empty sb) o.length aOk fill with ⟨r, st⟩
      simp only [strb_vprintf, strb_vputf, hw] at h
      cases r with
      | some off => simp at h
      | none =>
        rw [write_none_spec hw] at h
        simp only [Prod.mk.injEq] at h
        exact h.1.symm

/-! ### Characterisation of the terminator scan -/

theorem strnlenF_eq_of_all_ne (f : Nat → Nat) (n : Nat) (h : ∀ j, j < n → f j ≠ 0) :
    strnlenF f n = n := by
  induction n generalizing f with
  | zero => rfl
  | succ m ih =>
    unfold strnlenF
    rw [if_neg (h 0 (by omega)), ih (fun j => f (j + 1)) (fun j hj => h (j + 1) (by omega))]

theorem strnlenF_eq_of_first_zero (f : Nat → Nat) (n L : Nat) (hL : L < n) (h0 : f L = 0)
    (hne : ∀ j, j < L → f j ≠ 0) : strnlenF f n = L := by
  induction L generalizing f n with
  | zero =>
    cases n with
    | zero => omega
    | succ m =>
      unfold strnlenF
      rw [if_pos h0]
  | succ K ih =>
    cases n with
    | zero => omega
    | succ m =>
      unfold strnlenF
      rw [if_neg (hne 0 (by omega)),
        ih (fun j => f (j + 1)) m (by omega) h0 (fun j hj => hne (j + 1) (by omega))]

theorem strnlenF_congr (f g : Nat → Nat) (n : Nat) (h : ∀ j, j < n → f j = g j) :
    strnlenF f n = strnlenF g n := by
  induction n generalizing f g with
  | zero => rfl
  | succ m ih =>
    unfold strnlenF
    rw [h 0 (by omega)]
    split
    · rfl
    · rw [ih (fun j => f (j + 1)) (fun j => g (j + 1)) (fun j hj => h (j + 1) (by omega))]

/-- A successful `strb_seek` stores exactly the requested position, which the
bounds check has verified to be representable. -/
theorem seek_success_pos (sb : Strb) (p : Nat) (h : (strb_seek sb p).1 = 0) :
    (strb_seek sb p).2.pos = p ∧ p < STRB_MAX_SIZE := by
  by_cases hp : p < STRB_MAX_SIZE
  · constructor
    · simp only [strb_seek, if_pos hp]
    · exact hp
  · simp only [strb_seek, if_neg hp] at h
    exact absurd h (by decide)

/-! ### Concrete test states -/

/-- A byte array backed by a list, with arbitrary (nonzero) bytes beyond it. -/
def mkBuf (l : List Nat) : Nat → Nat := fun j => l.getD j 170

/-- A buffer over an external 4-byte array initially holding the string
"abc": size 4, length 3, position 3. -/
def cexSb : Strb := (strb_reuse 4 (mkBuf [97, 98, 99, 0])).getD default

/-- `cexSb` with a detached cursor at position 5 (beyond the length 3). -/
def cexDetached : Strb := (strb_seek cexSb 5).2

/-- A buffer over an external 8-byte array holding "abcdef", switched to
overwrite mode with the cursor at position 3. -/
def sb6ow : Strb :=
  (strb_seek ((strb_setmode ((strb_reuse 8 (mkBuf [97, 98, 99, 100, 101, 102, 0])).getD default) 1).2) 3).2

/-- A buffer over an external 9-byte array holding "cat", cursor at 0. -/
def catSb : Strb := (strb_seek ((strb_reuse 9 (mkBuf [99, 97, 116, 0])).getD default) 0).2

/-! ### Claims -/

/-- C1 (counterexample): the claim "every mutating operation fails atomically,
in particular the replace-content operations when their append step fails" is
false: `strb_ncpy` of a 6-character string into a full external 4-byte buffer
holding "abc" fails (returns `EOF` and sets the latch), but leaves the buffer
emptied (length 0) instead of with its pre-call length 3. -/
theorem C1_counterexample :
    (runOp (Op.ncpy [100, 100, 100, 100, 100, 100] 6) cexSb true 0).2 = false ∧
    cexSb.len = 3 ∧
    (runOp (Op.ncpy [100, 100, 100, 100, 100, 100] 6) cexSb true 0).1.len = 0 ∧
    (runOp (Op.ncpy [100, 100, 100, 100, 100, 100] 6) cexSb true 0).1.err = true := by
  decide

/-- C1 (amended): every public mutating operation other than the
replace-content family fails atomically — on failure the state is exactly the
pre-call state with the sticky error latch set; the replace-content operations
(`strb_ncpy`, `strb_cpy`, `strb_vprintf`, and hence `strb_printf`) first reset
the buffer to empty, so on failure of their append step they leave the emptied
buffer with the latch set, not the pre-call state. -/
theorem C1_failure_atomicity :
    ∀ (op : Op) (sb : Strb) (aOk : Bool) (fill : Nat) (sb' : Strb),
      runOp op sb aOk fill = (sb', false) →
      sb' = setErr (if op.isReplace then strb_empty sb else sb) :=
  runOp_fail

/-- C1 witness: a failing `strb_seek` to an unrepresentable position leaves the
buffer latched and otherwise untouched. -/
theorem C1_witness :
    (runOp (Op.seek 70000) cexSb true 0).1 =
      setErr (if (Op.seek 70000).isReplace then strb_empty cexSb else cexSb) :=
  C1_failure_atomicity (Op.seek 70000) cexSb true 0
    (runOp (Op.seek 70000) cexSb true 0).1 rfl

/-- C2: after every successful public operation the byte at offset `length`
is the terminator 0 and `length < capacity`; every public operation preserves
the buffer invariant. -/
theorem C2_invariant_preserved :
    ∀ (op : Op) (sb : Strb) (aOk : Bool) (fill : Nat),
      WF sb → (runOp op sb aOk fill).2 = true →
      (runOp op sb aOk fill).1.buf (runOp op sb aOk fill).1.len = 0 ∧
      (runOp op sb aOk fill).1.len < (runOp op sb aOk fill).1.size ∧
      WF (runOp op sb aOk fill).1 :=
  fun op sb aOk fill h _ =>
    ⟨(runOp_WF op sb aOk fill h).2.2.1, (runOp_WF op sb aOk fill h).1,
      runOp_WF op sb aOk fill h⟩

/-- C2 witness: a successful `strb_seek` on the "abc" buffer preserves the
invariant. -/
theorem C2_witness :
    (runOp (Op.seek 2) cexSb true 0).1.buf (runOp (Op.seek 2) cexSb true 0).1.len = 0 ∧
    (runOp (Op.seek 2) cexSb true 0).1.len < (runOp (Op.seek 2) cexSb true 0).1.size ∧
    WF (runOp (Op.seek 2) cexSb true 0).1 :=
  C2_invariant_preserved (Op.seek 2) cexSb true 0 (by decide) (by decide)

/-- C3 (counterexample): the claim "the position never exceeds capacity - 1 of
the buffer it is applied to" is false: on the external buffer of capacity 4,
`strb_seek` to 100 succeeds and leaves the position at 100, far beyond
capacity - 1 = 3. -/
theorem C3_counterexample :
    (strb_seek cexSb 100).1 = 0 ∧
    (strb_seek cexSb 100).2.size = 4 ∧
    (strb_seek cexSb 100).2.pos = 100 ∧
    ¬ (strb_seek cexSb 100).2.pos ≤ (strb_seek cexSb 100).2.size - 1 := by
  decide

/-- C3 (amended): after any completed public operation the position may exceed
the length (a detached cursor) but never exceeds `STRB_MAX_SIZE - 1` (the
bound `strb_seek` actually enforces); in particular a successful `strb_seek`
leaves the position at most `STRB_MAX_SIZE - 1`. -/
theorem C3_position_bounded :
    ∀ (op : Op) (sb : Strb) (aOk : Bool) (fill : Nat),
      WF sb →
      (runOp op sb aOk fill).1.pos ≤ STRB_MAX_SIZE - 1 ∧
      (∀ p, (strb_seek sb p).1 = 0 → (strb_seek sb p).2.pos ≤ STRB_MAX_SIZE - 1) := by
  intro op sb aOk fill h
  have hmax : STRB_MAX_SIZE = 65535 := rfl
  constructor
  · have := (runOp_WF op sb aOk fill h).2.2.2.1
    omega
  · intro p hp
    obtain ⟨h1, h2⟩ := seek_success_pos sb p hp
    omega

/-- C3 witness: after a successful seek on the "abc" buffer the position is
within the representable bound. -/
theorem C3_witness :
    (runOp (Op.seek 2) cexSb true 0).1.pos ≤ STRB_MAX_SIZE - 1 ∧
    (∀ p, (strb_seek cexSb p).1 = 0 → (strb_seek cexSb p).2.pos ≤ STRB_MAX_SIZE - 1) :=
  C3_position_bounded (Op.seek 2) cexSb true 0 (by decide)

/-- C4 (counterexample): the claim "`strb_delto(b, strb_tell(b))` is a no-op
for every cursor value including a detached cursor" is false: on the "abc"
buffer with detached cursor 5, `strb_delto` to the current position clamps the
position down to the length 3. -/
theorem C4_counterexample :
    cexDetached.pos = 5 ∧ cexDetached.len = 3 ∧
    (strb_delto cexDetached (strb_tell cexDetached)).len = cexDetached.len ∧
    (strb_delto cexDetached (strb_tell cexDetached)).pos = 3 ∧
    ¬ (strb_delto cexDetached (strb_tell cexDetached)).pos = cexDetached.pos := by
  decide

/-- C4 (amended): in both modes, `strb_delto(b, strb_tell(b))` never changes
the length, and leaves the position at `min position length`: a true no-op
whenever the cursor is not detached, and a clamp of the position to the length
for a detached cursor. -/
theorem C4_delto_tell :
    ∀ sb : Strb,
      (strb_delto sb (strb_tell sb)).len = sb.len ∧
      (strb_delto sb (strb_tell sb)).pos = min sb.pos sb.len := by
  intro sb
  unfold strb_delto strb_tell
  dsimp only
  by_cases ho : sb.overwrite = true
  · rw [if_pos ho]
    refine ⟨rfl, ?_⟩
    dsimp only
    split_ifs <;> omega
  · rw [if_neg ho]
    constructor
    · dsimp only
      split_ifs <;> omega
    · dsimp only
      split_ifs <;> omega

/-- C5: in overwrite mode a successful `strb_nputs` (and hence `strb_puts`,
which is `strb_nputs` with `SIZE_MAX`) increases the length by exactly
`max 0 ((position + len s) - old_length)` and moves no trailing bytes: every
byte of the old content at or beyond `position + len s` is unchanged. -/
theorem C5_overwrite_put :
    ∀ (sb : Strb) (s : List Nat) (n : Nat) (aOk : Bool) (fill : Nat),
      WF sb → sb.overwrite = true →
      (strb_nputs sb s n aOk fill).1 = 0 →
      (strb_nputs sb s n aOk fill).2.len =
        sb.len + ((sb.pos + strnlenL s n) - sb.len) ∧
      (∀ j, sb.pos + strnlenL s n ≤ j → j ≤ sb.len →
        (strb_nputs sb s n aOk fill).2.buf j = sb.buf j) := by
  intro sb s n aOk fill hWF ho hs
  rcases hw : strb_write sb (strnlenL s n) aOk fill with ⟨o, st⟩
  cases o with
  | none =>
    simp only [strb_nputs, hw] at hs
    exact absurd hs (by decide)
  | some off =>
    obtain ⟨W0, W1, W2, W3, W4, W5, W6, W7, W8, W9, W10, W11, W12, W13, W14, W15⟩ :=
      write_some_spec hw hWF.1 hWF.2.1 hWF.2.2.1
    have key : strb_nputs sb s n aOk fill =
        (0, { st with buf := memcpyL st.buf off (s.take (strnlenL s n)) }) := by
      simp only [strb_nputs, hw]
    rw [key]
    constructor
    · show st.len = sb.len + ((sb.pos + strnlenL s n) - sb.len)
      rw [W2, if_pos ho]
      omega
    · intro j hj1 hj2
      show memcpyL st.buf off (s.take (strnlenL s n)) j = sb.buf j
      rw [memcpyL_apply, take_strnlenL_length, if_neg (by omega)]
      exact W14 ho j hj1 hj2

/-- C5 witness: the claim's scenario — on "abcdef" (length 6) in overwrite
mode with the cursor at 3, putting "ZZ" yields "abcZZf" with the length
unchanged at 6. -/
theorem C5_witness :
    (strb_nputs sb6ow [90, 90] 2 true 0).2.len =
      sb6ow.len + ((sb6ow.pos + strnlenL [90, 90] 2) - sb6ow.len) ∧
    sb6ow.len = 6 ∧ sb6ow.pos = 3 ∧
    (strb_nputs sb6ow [90, 90] 2 true 0).2.len = 6 ∧
    contentsUpTo (strb_nputs sb6ow [90, 90] 2 true 0).2 7 =
      [97, 98, 99, 90, 90, 102, 0] :=
  ⟨(C5_overwrite_put sb6ow [90, 90] 2 true 0 (by decide) (by decide) (by decide)).1,
    by decide, by decide, by decide, by decide⟩

/-- C6: during an overwrite-mode prepare-write of `n ≥ 1` bytes, the saved
undo byte is computed as if the write were done byte-by-byte with intermediate
terminator placement: if `position + n - 1` falls beyond the pre-write length
it is the terminator 0, otherwise it is the byte at offset `position + n - 1`
before the write. -/
theorem C6_overwrite_undo_byte :
    ∀ (sb : Strb) (n : Nat) (aOk : Bool) (fill : Nat) (off : Nat) (s' : Strb),
      WF sb → sb.overwrite = true → 1 ≤ n →
      strb_write sb n aOk fill = (some off, s') →
      s'.unputc_char =
        if sb.pos + n - 1 > sb.len then 0 else sb.buf (sb.pos + n - 1) := by
  intro sb n aOk fill off s' hWF ho hn hw
  obtain ⟨W0, W1, W2, W3, W4, W5, W6, W7, W8, W9, W10, W11, W12, W13, W14, W15⟩ :=
    write_some_spec hw hWF.1 hWF.2.1 hWF.2.2.1
  rw [W15 ho]
  by_cases hc : sb.pos + n > sb.len + 1
  · rw [if_pos (Or.inr hc), if_pos (by omega)]
  · rw [if_neg (by omega), if_neg (by omega)]

/-- C6 witness: on "abcdef" in overwrite mode at position 3, a prepare-write
of 3 bytes saves the byte previously at offset 5, the character 'f'. -/
theorem C6_witness :
    (strb_write sb6ow 3 true 0).2.unputc_char =
      (if sb6ow.pos + 3 - 1 > sb6ow.len then 0 else sb6ow.buf (sb6ow.pos + 3 - 1)) ∧
    (strb_write sb6ow 3 true 0).2.unputc_char = 102 :=
  ⟨C6_overwrite_undo_byte sb6ow 3 true 0 3 (strb_write sb6ow 3 true 0).2
      (by decide) (by decide) (by decide) rfl,
    by decide⟩

/-- C7 (counterexample): the claim "`strb_write(b, n)` followed immediately by
`strb_restore(b)` leaves contents, length and position identical to before the
`strb_write` call (apart from the written region)" is false: on "cat" with the
cursor at 0, a prepare-write of 4 followed immediately by restore leaves the
position at 4 (it was 0) and the length at 7 (it was 3). -/
theorem C7_counterexample :
    catSb.pos = 0 ∧ catSb.len = 3 ∧
    (strb_write catSb 4 true 0).1 = some 0 ∧
    (strb_restore (strb_write catSb 4 true 0).2).pos = 4 ∧
    (strb_restore (strb_write catSb 4 true 0).2).len = 7 ∧
    ¬ ((strb_restore (strb_write catSb 4 true 0).2).pos = catSb.pos ∧
       (strb_restore (strb_write catSb 4 true 0).2).len = catSb.len) := by
  decide

/-- C7 (amended): after a successful `strb_write(b, n)`, if the caller stores
`n + 1` bytes into the returned region (their data plus a terminator) and then
calls `strb_restore` with no intervening mutating call, the buffer is
observably identical to the state immediately after the `strb_write` call
except that the first `n` bytes of the region hold the caller's bytes: the
length and position are those of the post-write state, the byte at offset `n`
of the region is restored to its post-write value, and every byte outside the
region is unchanged. -/
theorem C7_write_restore :
    ∀ (sb : Strb) (n : Nat) (aOk : Bool) (fill : Nat) (off : Nat) (s' : Strb)
      (w : List Nat),
      WF sb →
      strb_write sb n aOk fill = (some off, s') →
      w.length = n + 1 →
      (strb_restore (directWrite s' off w)).len = s'.len ∧
      (strb_restore (directWrite s' off w)).pos = s'.pos ∧
      (∀ j, j < n → (strb_restore (directWrite s' off w)).buf (off + j) = w.getD j 0) ∧
      (∀ j, j < off ∨ off + n ≤ j →
        (strb_restore (directWrite s' off w)).buf j = s'.buf j) := by
  intro sb n aOk fill off s' w hWF hw hwl
  obtain ⟨W0, W1, W2, W3, W4, W5, W6, W7, W8, W9, W10, W11, W12, W13, W14, W15⟩ :=
    write_some_spec hw hWF.1 hWF.2.1 hWF.2.2.1
  unfold strb_restore directWrite
  rw [if_pos (show ({ s' with buf := memcpyL s'.buf off w } : Strb).canRestore = true from W11)]
  refine ⟨rfl, rfl, ?_, ?_⟩
  · intro j hj
    show Function.update (memcpyL s'.buf off w) s'.pos s'.restore_char (off + j) = w.getD j 0
    rw [Function.update_noteq (by omega), memcpyL_apply, if_pos (by omega),
      show off + j - off = j from by omega]
  · intro j hj
    show Function.update (memcpyL s'.buf off w) s'.pos s'.restore_char j = s'.buf j
    by_cases hjp : j = s'.pos
    · rw [hjp, Function.update_same, W12, ← W1]
    · rw [Function.update_noteq hjp, memcpyL_apply, if_neg (by omega)]

/-- C7 witness: prepending to "cat" — prepare-write of 4, the caller stores
"fish\0", restore re-stitches the clobbered 'c', giving "fishcat" with the
post-write length 7 and position 4. -/
theorem C7_witness :
    ((strb_restore (directWrite (strb_write catSb 4 true 0).2 0 [102, 105, 115, 104, 0])).len
        = (strb_write catSb 4 true 0).2.len ∧
      (strb_restore (directWrite (strb_write catSb 4 true 0).2 0 [102, 105, 115, 104, 0])).pos
        = (strb_write catSb 4 true 0).2.pos ∧
      (∀ j, j < 4 →
        (strb_restore (directWrite (strb_write catSb 4 true 0).2 0 [102, 105, 115, 104, 0])).buf (0 + j)
          = [102, 105, 115, 104, 0].getD j 0) ∧
      (∀ j, j < 0 ∨ 0 + 4 ≤ j →
        (strb_restore (directWrite (strb_write catSb 4 true 0).2 0 [102, 105, 115, 104, 0])).buf j
          = (strb_write catSb 4 true 0).2.buf j)) ∧
    contentsUpTo (strb_restore (directWrite (strb_write catSb 4 true 0).2 0 [102, 105, 115, 104, 0])) 8
      = [102, 105, 115, 104, 99, 97, 116, 0] :=
  ⟨C7_write_restore catSb 4 true 0 0 (strb_write catSb 4 true 0).2
      [102, 105, 115, 104, 0] (by decide) rfl rfl,
    by decide⟩

/-- C8: `strb_reuse` scans the first `min size STRB_MAX_SIZE` characters of
the supplied array for a null terminator; if none occurs there it returns the
failure sentinel (no buffer is created, so no error latch exists to set), and
if the first null occurs at offset `L` the created buffer has length `L` and
position `L` with the error latch clear. -/
theorem C8_reuse_scan :
    ∀ (size : Nat) (buf : Nat → Nat),
      ((∀ j, j < min size STRB_MAX_SIZE → buf j ≠ 0) → strb_reuse size buf = none) ∧
      (∀ L, L < min size STRB_MAX_SIZE → buf L = 0 → (∀ j, j < L → buf j ≠ 0) →
        ∃ sb', strb_reuse size buf = some sb' ∧
          sb'.len = L ∧ sb'.pos = L ∧ sb'.err = false) := by
  intro size buf
  have hmin : (if size > STRB_MAX_SIZE then STRB_MAX_SIZE else size) =
      min size STRB_MAX_SIZE := by
    split_ifs <;> omega
  constructor
  · intro hall
    simp only [strb_reuse, hmin]
    rw [strnlenF_eq_of_all_ne buf _ hall, if_pos rfl]
  · intro L hL h0 hne
    refine ⟨init_use (min size STRB_MAX_SIZE) buf L, ?_, rfl, rfl, rfl⟩
    simp only [strb_reuse, hmin]
    rw [strnlenF_eq_of_first_zero buf _ L hL h0 hne, if_neg (by omega)]

/-- C8 witness: an array of all non-terminator bytes makes `strb_reuse` fail,
and an array whose first null is at offset 2 yields a buffer with length 2 and
position 2. -/
theorem C8_witness :
    strb_reuse 3 (fun _ => 65) = none ∧
    ∃ sb', strb_reuse 5 (mkBuf [97, 98, 0]) = some sb' ∧
      sb'.len = 2 ∧ sb'.pos = 2 ∧ sb'.err = false :=
  ⟨(C8_reuse_scan 3 (fun _ => 65)).1 (fun j hj => by decide),
    (C8_reuse_scan 5 (mkBuf [97, 98, 0])).2 2 (by decide) (by decide)
      (fun j hj => by interval_cases j <;> decide)⟩

/-- C9: for every buffer whose write top (the position, in overwrite mode or
with a detached cursor, otherwise the length) is strictly below the buffer
size, `strb_write(sb, 0)` cannot return a null pointer, so the
null-dereference branch of `strb_split` is unreachable under that
precondition. -/
theorem C9_split_write_safe :
    ∀ (sb : Strb) (aOk : Bool) (fill : Nat),
      WF sb → writeTop sb < sb.size →
      (strb_write sb 0 aOk fill).1.isSome = true ∧
      (strb_split sb aOk fill).2 = true := by
  intro sb aOk fill hWF htop
  have hsz := hWF.2.1
  have hmax : STRB_MAX_SIZE = 65535 := rfl
  have hE : strb_ensure sb 0 (writeTop sb) aOk fill = some sb := by
    unfold strb_ensure
    rw [if_neg (by omega)]
    simp only
    rw [if_pos (show 0 < sb.size - writeTop sb from by omega)]
  have hsome : (strb_write sb 0 aOk fill).1 = some sb.pos := by
    unfold strb_write
    rw [hE]
  constructor
  · rw [hsome]
    rfl
  · unfold strb_split
    rcases hw : strb_write sb 0 aOk fill with ⟨o, st⟩
    rw [hw] at hsome
    cases o with
    | none => simp at hsome
    | some off => rfl

/-- C9 witness: on the "abc" buffer (insert mode, top = length 3 < size 4) the
zero-length prepare-write succeeds and `strb_split` takes its normal branch. -/
theorem C9_witness :
    (strb_write cexSb 0 true 0).1.isSome = true ∧
    (strb_split cexSb true 0).2 = true :=
  C9_split_write_safe cexSb true 0 (by decide) (by decide)

/-- C10: `strb_use` and `strb_reuse` silently clamp an oversized array to
`STRB_MAX_SIZE` instead of failing: the created buffer's capacity is
`min size STRB_MAX_SIZE`; `strb_use` touches only offset 0 of the caller's
array (which is below the clamped limit whenever `size > 0`), and the state
built by `strb_reuse` is entirely determined by the first
`min size STRB_MAX_SIZE` bytes of the array, so no byte at or beyond the
limit is ever examined by the scan. -/
theorem C10_use_reuse_clamp :
    ∀ (size : Nat) (buf : Nat → Nat), 0 < size →
      (strb_use size buf).size = min size STRB_MAX_SIZE ∧
      (strb_use size buf).buf 0 = 0 ∧
      (∀ j, j ≠ 0 → (strb_use size buf).buf j = buf j) ∧
      (∀ sb', strb_reuse size buf = some sb' →
        sb'.size = min size STRB_MAX_SIZE) ∧
      (∀ g : Nat → Nat, (∀ j, j < min size STRB_MAX_SIZE → buf j = g j) →
        ((strb_reuse size buf).isSome = (strb_reuse size g).isSome ∧
          ∀ sb₁ sb₂, strb_reuse size buf = some sb₁ → strb_reuse size g = some sb₂ →
            sb₁.len = sb₂.len ∧ sb₁.pos = sb₂.pos ∧ sb₁.size = sb₂.size)) := by
  intro size buf hpos
  have hmin : (if size > STRB_MAX_SIZE then STRB_MAX_SIZE else size) =
      min size STRB_MAX_SIZE := by
    split_ifs <;> omega
  refine ⟨?_, rfl, ?_, ?_, ?_⟩
  · show (if size > STRB_MAX_SIZE then STRB_MAX_SIZE else size) =
      min size STRB_MAX_SIZE
    exact hmin
  · intro j hj
    show (if j = 0 then 0 else buf j) = buf j
    rw [if_neg hj]
  · intro sb' h
    simp only [strb_reuse, hmin] at h
    split at h
    · exact absurd h (by simp)
    · obtain rfl := Option.some.inj h
      rfl
  · intro g hagree
    have hsl := strnlenF_congr buf g (min size STRB_MAX_SIZE) hagree
    constructor
    · simp only [strb_reuse, hmin, hsl]
      by_cases hc : strnlenF g (min size STRB_MAX_SIZE) = min size STRB_MAX_SIZE
      · rw [if_pos hc, if_pos hc]
      · rw [if_neg hc, if_neg hc]
        rfl
    · intro sb1 sb2 h1 h2
      simp only [strb_reuse, hmin, hsl] at h1 h2
      by_cases hc : strnlenF g (min size STRB_MAX_SIZE) = min size STRB_MAX_SIZE
      · rw [if_pos hc] at h1
        exact absurd h1 (by simp)
      · rw [if_neg hc] at h1 h2
        obtain rfl := Option.some.inj h1
        obtain rfl := Option.some.inj h2
        exact ⟨rfl, rfl, rfl⟩

/-- C10 witness: a 70000-byte array is clamped to capacity 65535 by
`strb_use`, which stores a terminator at offset 0. -/
theorem C10_witness :
    (strb_use 70000 (mkBuf [0])).size = min 70000 STRB_MAX_SIZE ∧
    (strb_use 70000 (mkBuf [0])).size = 65535 ∧
    (strb_use 70000 (mkBuf [0])).buf 0 = 0 :=
  ⟨(C10_use_reuse_clamp 70000 (mkBuf [0]) (by decide)).1, by decide,
    (C10_use_reuse_clamp 70000 (mkBuf [0]) (by decide)).2.1⟩
